import Mathlib

/-!
Shallow embedding of the travel-partner server core (trip roster routes,
conversation/chat routes, and the socket presence registry), together with
proofs about the claims of the specification.

User ids (Mongo ObjectIds) are modelled as natural numbers; timestamps
(JS Date values) as natural numbers; each `new Date()` in the source is a
separate clock reading and therefore a separate parameter of the model.
-/

namespace TravelServer

/-- The express-validator `trim()` sanitizer (JS `String.prototype.trim`):
strips leading and trailing whitespace.  Written over the character list so
that it evaluates inside the kernel. -/
def jsTrim (s : String) : String :=
  String.mk (((s.data.dropWhile Char.isWhitespace).reverse.dropWhile Char.isWhitespace).reverse)

/-- The `status` enum of the Post schema: `active | full | completed | cancelled`. -/
inductive TripStatus where
  | active
  | full
  | completed
  | cancelled
deriving DecidableEq

/-- One element of the Post schema's embedded `comments` array:
`{user, text, createdAt}`. -/
structure TripComment where
  user : Nat
  text : String
  createdAt : Nat
deriving DecidableEq

/-- The Post (trip) document, restricted to the fields read or written by the
membership and comment operations.  The remaining scalar attributes of the
schema (title, description, cities, travelTime, transportMode, estimatedCost,
notes) are never read by join/leave/comment and are omitted. -/
structure Trip where
  creator : Nat
  participants : List Nat
  currentParticipants : Nat
  maxParticipants : Nat
  travelDate : Nat
  status : TripStatus
  comments : List TripComment
deriving DecidableEq

/-- The error outcomes of the routes, one constructor per distinct rejection:
`notFound` = 404 "not found"; `invalidState` = "This trip is no longer active";
`selfJoin` = "You cannot join your own trip"; `alreadyMember` = "You have
already joined this trip"; `full` = "This trip is already full";
`creatorCannotLeave` = "Trip creator cannot leave the trip"; `notMember` =
"You are not part of this trip"; `validationError` = express-validator 400;
`forbidden` = "You are not a participant in this chat". -/
inductive ApiErr where
  | notFound
  | invalidState
  | selfJoin
  | alreadyMember
  | full
  | creatorCannotLeave
  | notMember
  | validationError
  | forbidden
deriving DecidableEq

/-- `POST /api/posts` (create): the validator requires
`maxParticipants` to be an integer in [2,10], and the handler rejects a
`travelDate` not strictly in the future.  On success the post is created with
`participants = [creator]`, `currentParticipants = 1` (schema default) and
`status = active` (schema default). -/
def createTrip (creator maxP travelDate now : Nat) : Option Trip :=
  if 2 ≤ maxP ∧ maxP ≤ 10 ∧ now < travelDate then
    some { creator := creator
           participants := [creator]
           currentParticipants := 1
           maxParticipants := maxP
           travelDate := travelDate
           status := TripStatus.active
           comments := [] }
  else none

/-- `POST /api/posts/:id/join` after the post has been found: checks, in
order, `status !== 'active'`, creator self-join, `participants.includes`,
and `currentParticipants >= maxParticipants`; on success pushes the user,
increments the counter, and sets `status = 'full'` when the new counter has
reached `maxParticipants`. -/
def join (t : Trip) (u : Nat) : Except ApiErr Trip :=
  if t.status ≠ TripStatus.active then Except.error ApiErr.invalidState
  else if u = t.creator then Except.error ApiErr.selfJoin
  else if u ∈ t.participants then Except.error ApiErr.alreadyMember
  else if t.maxParticipants ≤ t.currentParticipants then Except.error ApiErr.full
  else
    Except.ok { t with
      participants := t.participants ++ [u]
      currentParticipants := t.currentParticipants + 1
      status := if t.maxParticipants ≤ t.currentParticipants + 1 then TripStatus.full
                else t.status }

/-- `POST /api/posts/:id/leave` after the post has been found: checks, in
order, creator (who can never leave) and membership; on success filters the
user out of `participants`, decrements the counter, and resets a `full`
status to `active`.  Note: the handler performs no check of `status`. -/
def leave (t : Trip) (u : Nat) : Except ApiErr Trip :=
  if u = t.creator then Except.error ApiErr.creatorCannotLeave
  else if u ∉ t.participants then Except.error ApiErr.notMember
  else
    Except.ok { t with
      participants := t.participants.filter (fun p => p != u)
      currentParticipants := t.currentParticipants - 1
      status := if t.status = TripStatus.full then TripStatus.active else t.status }

/-- `POST /api/posts/:id/comments` after the post has been found: the
validator trims the text and requires length in [1,500]; on success the
trimmed comment is pushed with a server-assigned `createdAt`.  The handler
checks neither the trip's status nor the commenter's membership. -/
def addComment (t : Trip) (u : Nat) (text : String) (now : Nat) : Except ApiErr Trip :=
  if (jsTrim text).length < 1 ∨ 500 < (jsTrim text).length then Except.error ApiErr.validationError
  else
    Except.ok { t with comments := t.comments ++ [{ user := u, text := jsTrim text, createdAt := now }] }

/-- `Post.findById` over a store of posts keyed by id. -/
def findPost (store : List (Nat × Trip)) (id : Nat) : Option Trip :=
  (store.find? (fun p => p.1 == id)).map (fun p => p.2)

/-- The join route including the 404 branch for an absent post id. -/
def joinPost (store : List (Nat × Trip)) (id u : Nat) : Except ApiErr Trip :=
  match findPost store id with
  | none => Except.error ApiErr.notFound
  | some t => join t u

/-- The leave route including the 404 branch for an absent post id. -/
def leavePost (store : List (Nat × Trip)) (id u : Nat) : Except ApiErr Trip :=
  match findPost store id with
  | none => Except.error ApiErr.notFound
  | some t => leave t u

/-- The trip states reachable from a successful creation by any sequence of
successful join, leave and add-comment operations. -/
inductive ReachableTrip : Trip → Prop where
  | create (c m td now : Nat) (t : Trip) :
      createTrip c m td now = some t → ReachableTrip t
  | join (t t' : Trip) (u : Nat) :
      ReachableTrip t → join t u = Except.ok t' → ReachableTrip t'
  | leave (t t' : Trip) (u : Nat) :
      ReachableTrip t → leave t u = Except.ok t' → ReachableTrip t'
  | comment (t t' : Trip) (u : Nat) (text : String) (now : Nat) :
      ReachableTrip t → addComment t u text now = Except.ok t' → ReachableTrip t'

/-- The inductive invariant of reachable trip states (slightly stronger than
the spec's statement: it also records that the roster has no duplicates and
that the capacity is at least 2, both needed for the induction to close). -/
def TripInv (t : Trip) : Prop :=
  t.participants.length = t.currentParticipants ∧
  t.participants.length ≤ t.maxParticipants ∧
  t.creator ∈ t.participants ∧
  t.participants.Nodup ∧
  2 ≤ t.maxParticipants

theorem tripInv_reachable {t : Trip} (h : ReachableTrip t) : TripInv t := by
  induction h with
  | create c m td now t hc =>
    unfold createTrip at hc
    split at hc
    · rename_i hcond
      cases hc
      refine ⟨rfl, ?_, ?_, ?_, hcond.1⟩
      · simpa using Nat.le_trans (by omega) hcond.1
      · simp
      · simp
    · exact absurd hc (by simp)
  | join t t' u _ hj ih =>
    obtain ⟨hlen, hcap, hcr, hnd, hmax⟩ := ih
    unfold join at hj
    split at hj
    · exact absurd hj (by simp)
    · split at hj
      · exact absurd hj (by simp)
      · split at hj
        · exact absurd hj (by simp)
        · split at hj
          · exact absurd hj (by simp)
          · rename_i hst hcrne hmem hfull
            cases hj
            refine ⟨by simpa using hlen, ?_, ?_, ?_, hmax⟩
            · simp only [List.length_append, List.length_cons, List.length_nil]
              omega
            · simp [hcr]
            · simpa [List.nodup_append] using ⟨hnd, fun hmem' => hmem (by simpa using hmem')⟩
  | leave t t' u _ hl ih =>
    obtain ⟨hlen, hcap, hcr, hnd, hmax⟩ := ih
    unfold leave at hl
    split at hl
    · exact absurd hl (by simp)
    · split at hl
      · exact absurd hl (by simp)
      · rename_i hcrne hmem
        rw [Decidable.not_not] at hmem
        cases hl
        have herase : t.participants.filter (fun p => p != u) = t.participants.erase u :=
          (List.Nodup.erase_eq_filter hnd u).symm
        have hlenerase : (t.participants.erase u).length = t.participants.length - 1 :=
          List.length_erase_of_mem hmem
        refine ⟨?_, ?_, ?_, ?_, hmax⟩
        · simp only [herase, hlenerase]
          omega
        · simp only [herase, hlenerase]
          omega
        · simp only [List.mem_filter, bne_iff_ne]
          exact ⟨hcr, fun hctr => hcrne (hctr ▸ rfl)⟩
        · exact List.Nodup.filter _ hnd
  | comment t t' u text now _ hc ih =>
    unfold addComment at hc
    split at hc
    · exact absurd hc (by simp)
    · cases hc
      exact ih

/-- C1: every trip state reachable by create, join, leave and add-comment
operations keeps the roster length equal to the `currentParticipants`
counter, keeps the roster within `maxParticipants`, and keeps the creator a
member of the roster. -/
theorem trip_roster_invariant (t : Trip) (h : ReachableTrip t) :
    t.participants.length = t.currentParticipants ∧
    t.participants.length ≤ t.maxParticipants ∧
    t.creator ∈ t.participants := by
  obtain ⟨h1, h2, h3, _, _⟩ := tripInv_reachable h
  exact ⟨h1, h2, h3⟩

/-- The concrete trip produced by `createTrip 1 2 5 0`. -/
def tripW0 : Trip :=
  { creator := 1, participants := [1], currentParticipants := 1,
    maxParticipants := 2, travelDate := 5, status := TripStatus.active,
    comments := [] }

/-- A concrete trip reached by creating with creator 1 and capacity 2 and
then joining as user 2. -/
def tripW : Trip :=
  { creator := 1, participants := [1, 2], currentParticipants := 2,
    maxParticipants := 2, travelDate := 5, status := TripStatus.full,
    comments := [] }

/-- C1 witness: the invariant holds at the concrete reachable trip `tripW`. -/
theorem trip_roster_invariant_witness :
    tripW.participants.length = tripW.currentParticipants ∧
    tripW.participants.length ≤ tripW.maxParticipants ∧
    tripW.creator ∈ tripW.participants :=
  trip_roster_invariant tripW
    (ReachableTrip.join tripW0 tripW 2 (ReachableTrip.create 1 2 5 0 tripW0 (by decide)) rfl)

/-- C2: for a stored trip with status `active`, join fails `SelfJoin` for the
creator, `AlreadyMember` for an existing participant, `Full` when the counter
has reached capacity, and otherwise appends the user and sets the status to
`full` exactly when the new count reaches `maxParticipants`; join on an
absent id fails `NotFound`. -/
theorem join_semantics (store : List (Nat × Trip)) (id u : Nat) (t : Trip)
    (hactive : t.status = TripStatus.active) :
    (findPost store id = none → joinPost store id u = Except.error ApiErr.notFound) ∧
    (u = t.creator → join t u = Except.error ApiErr.selfJoin) ∧
    (u ≠ t.creator → u ∈ t.participants → join t u = Except.error ApiErr.alreadyMember) ∧
    (u ≠ t.creator → u ∉ t.participants → t.maxParticipants ≤ t.currentParticipants →
      join t u = Except.error ApiErr.full) ∧
    (u ≠ t.creator → u ∉ t.participants → t.currentParticipants < t.maxParticipants →
      join t u = Except.ok { t with
        participants := t.participants ++ [u]
        currentParticipants := t.currentParticipants + 1
        status := if t.currentParticipants + 1 = t.maxParticipants then TripStatus.full
                  else TripStatus.active }) := by
  refine ⟨?_, ?_, ?_, ?_, ?_⟩
  · intro h
    unfold joinPost
    rw [h]
  · intro h
    simp [join, hactive, h]
  · intro h1 h2
    simp [join, hactive, h1, h2]
  · intro h1 h2 h3
    simp [join, hactive, h1, h2, h3]
  · intro h1 h2 h3
    have hnot : ¬ t.maxParticipants ≤ t.currentParticipants := by omega
    by_cases heq : t.currentParticipants + 1 = t.maxParticipants
    · simp [join, hactive, h1, h2, hnot, heq]
    · have hlt : ¬ t.maxParticipants ≤ t.currentParticipants + 1 := by omega
      simp [join, hactive, h1, h2, hnot, heq, hlt]

/-- C2 witness: joining the active one-slot-left trip `tripW0` as user 2
succeeds and fills the trip. -/
theorem join_semantics_witness : join tripW0 2 = Except.ok tripW :=
  (join_semantics [] 0 2 tripW0 rfl).2.2.2.2 (by decide) (by decide) (by decide)

/-- A completed (terminal) trip with members 1 (the creator) and 2. -/
def tripC3 : Trip :=
  { creator := 1, participants := [1, 2], currentParticipants := 2,
    maxParticipants := 3, travelDate := 10, status := TripStatus.completed,
    comments := [] }

/-- C3 counterexample: on the completed trip `tripC3`, a leave by the
non-creator member 2 is not rejected with `InvalidState`: it succeeds and
removes the member, because the leave handler never checks `status`. -/
theorem leave_terminal_counterexample :
    tripC3.status = TripStatus.completed ∧
    leave tripC3 2 = Except.ok { tripC3 with participants := [1], currentParticipants := 1 } :=
  ⟨rfl, rfl⟩

/-- C3 amended: on a completed or cancelled trip, join is rejected with
`InvalidState`, but leave performs no status check: it still rejects the
creator (`CreatorCannotLeave`) and non-members (`NotMember`), and for a
non-creator member it succeeds, removing the member and leaving the status
unchanged. -/
theorem terminal_join_leave (t : Trip) (u : Nat)
    (hterm : t.status = TripStatus.completed ∨ t.status = TripStatus.cancelled) :
    join t u = Except.error ApiErr.invalidState ∧
    (u = t.creator → leave t u = Except.error ApiErr.creatorCannotLeave) ∧
    (u ≠ t.creator → u ∉ t.participants → leave t u = Except.error ApiErr.notMember) ∧
    (u ≠ t.creator → u ∈ t.participants →
      leave t u = Except.ok { t with
        participants := t.participants.filter (fun p => p != u)
        currentParticipants := t.currentParticipants - 1 }) := by
  have hne : t.status ≠ TripStatus.active := by
    rcases hterm with h | h <;> simp [h]
  have hnf : t.status ≠ TripStatus.full := by
    rcases hterm with h | h <;> simp [h]
  refine ⟨?_, ?_, ?_, ?_⟩
  · simp [join, hne]
  · intro h
    simp [leave, h]
  · intro h1 h2
    simp [leave, h1, h2]
  · intro h1 h2
    simp [leave, h1, h2, hnf]

/-- C3 amended witness: at the concrete completed trip `tripC3`, join as
user 2 fails `InvalidState` while leave as user 2 succeeds. -/
theorem terminal_join_leave_witness :
    join tripC3 2 = Except.error ApiErr.invalidState ∧
    leave tripC3 2 = Except.ok { tripC3 with participants := [1], currentParticipants := 1 } :=
  ⟨(terminal_join_leave tripC3 2 (Or.inl rfl)).1,
   (terminal_join_leave tripC3 2 (Or.inl rfl)).2.2.2 (by decide) (by decide)⟩

/-- C4: leave always rejects the creator with `CreatorCannotLeave` (checked
before anything else), rejects a non-member with `NotMember`, otherwise
filters the user out of the roster, decrements the counter, and resets a
`full` status to `active`; leave on an absent id fails `NotFound`. -/
theorem leave_semantics (store : List (Nat × Trip)) (id u : Nat) (t : Trip) :
    (findPost store id = none → leavePost store id u = Except.error ApiErr.notFound) ∧
    (u = t.creator → leave t u = Except.error ApiErr.creatorCannotLeave) ∧
    (u ≠ t.creator → u ∉ t.participants → leave t u = Except.error ApiErr.notMember) ∧
    (u ≠ t.creator → u ∈ t.participants →
      leave t u = Except.ok { t with
        participants := t.participants.filter (fun p => p != u)
        currentParticipants := t.currentParticipants - 1
        status := if t.status = TripStatus.full then TripStatus.active else t.status }) := by
  refine ⟨?_, ?_, ?_, ?_⟩
  · intro h
    unfold leavePost
    rw [h]
  · intro h
    simp [leave, h]
  · intro h1 h2
    simp [leave, h1, h2]
  · intro h1 h2
    simp [leave, h1, h2]

/-- C4 witness: user 2 leaving the full trip `tripW` succeeds, shrinking the
roster back to the creator and reverting the status to `active`. -/
theorem leave_semantics_witness :
    leave tripW 2 = Except.ok { tripW with
      participants := [1], currentParticipants := 1, status := TripStatus.active } :=
  (leave_semantics [] 0 2 tripW).2.2.2 (by decide) (by decide)

/-- C10: adding a comment succeeds on any stored trip — whatever its status
and whether or not the commenter is a participant — as soon as the trimmed
text has between 1 and 500 characters, and appends the trimmed comment. -/
theorem add_comment_unrestricted (t : Trip) (u : Nat) (text : String) (now : Nat)
    (h1 : 1 ≤ (jsTrim text).length) (h2 : (jsTrim text).length ≤ 500) :
    addComment t u text now =
      Except.ok { t with
        comments := t.comments ++ [{ user := u, text := jsTrim text, createdAt := now }] } := by
  have hok : ¬ ((jsTrim text).length < 1 ∨ 500 < (jsTrim text).length) := by omega
  unfold addComment
  rw [if_neg hok]

/-- C10 witness: user 9, who is not a participant, comments on the completed
trip `tripC3` and the comment is appended. -/
theorem add_comment_unrestricted_witness :
    addComment tripC3 9 "hi" 42 =
      Except.ok { tripC3 with comments := [{ user := 9, text := "hi", createdAt := 42 }] } :=
  add_comment_unrestricted tripC3 9 "hi" 42 (by decide) (by decide)

/-- One element of the conversation's `messages` array.

Modelled from the spec: the Chat schema file (models/Chat.js) is absent from
the sources; per the spec's Conversation data model a message is
`{sender user-id, content, timestamp, read: boolean}` and `read` defaults to
false when a message is appended without it (as the send route does). -/
structure ChatMessage where
  sender : Nat
  content : String
  timestamp : Nat
  read : Bool
deriving DecidableEq

/-- The Chat (conversation) document as used by the chat routes.

Modelled from the spec: models/Chat.js is absent from the sources; the
fields below are exactly those the routes read and write (`participants`,
`messages`, `lastMessage`, `relatedPost`), with a new conversation starting
with no messages. -/
structure Chat where
  id : Nat
  participants : List Nat
  messages : List ChatMessage
  lastMessage : Nat
  relatedPost : Option Nat
deriving DecidableEq

/-- The Mongo query `{participants: {$all: [me, other]}}`: a conversation
matches when its participant array contains both users. -/
def pairPred (me other : Nat) (c : Chat) : Bool :=
  c.participants.contains me && c.participants.contains other

/-- The conversation document `new Chat({participants, relatedPost})` built
by the find-or-create route: two participants in request order, no messages
yet.  `newId` stands for the fresh ObjectId Mongo assigns. -/
def newConv (me other newId : Nat) (relatedPost : Option Nat) : Chat :=
  { id := newId, participants := [me, other], messages := [],
    lastMessage := 0, relatedPost := relatedPost }

/-- `GET /api/chat/:userId` (find-or-create): looks up a conversation whose
participants contain both users (Mongo `$all`); if none exists, creates one
with `participants = [me, other]` and the optional related post, and returns
it. -/
def findOrCreate (chats : List Chat) (me other newId : Nat) (relatedPost : Option Nat) :
    Chat × List Chat :=
  match chats.find? (pairPred me other) with
  | some c => (c, chats)
  | none => (newConv me other newId relatedPost, chats ++ [newConv me other newId relatedPost])

/-- The message value built by the send route from a sender, the trimmed
content, and the first clock reading; `read` is the schema default false. -/
def msgOf (sender : Nat) (content : String) (t1 : Nat) : ChatMessage :=
  { sender := sender, content := jsTrim content, timestamp := t1, read := false }

/-- `POST /api/chat/:chatId/messages` after the chat has been found: the
validator trims the content and requires length in [1,1000]; a non-participant
is rejected 403; on success the message is pushed with `timestamp` from one
clock reading (`t1`) while `lastMessage` is set from a second, separate clock
reading (`t2` — the source calls `new Date()` twice), and the last element of
the updated message array is returned to the caller. -/
def appendMessage (chat : Chat) (sender : Nat) (content : String) (t1 t2 : Nat) :
    Except ApiErr (Chat × Option ChatMessage) :=
  if (jsTrim content).length < 1 ∨ 1000 < (jsTrim content).length then Except.error ApiErr.validationError
  else if ¬ chat.participants.contains sender then Except.error ApiErr.forbidden
  else
    let chat' := { chat with messages := chat.messages ++ [msgOf sender content t1],
                             lastMessage := t2 }
    Except.ok (chat', chat'.messages.getLast?)

/-- The per-message update of the mark-read route: set `read := true` on a
message from anyone other than the reader, leave the reader's own messages
alone. -/
def readAll (reader : Nat) (m : ChatMessage) : ChatMessage :=
  if m.sender != reader then { m with read := true } else m

/-- `PUT /api/chat/:chatId/read` after the chat has been found: a
non-participant is rejected 403; otherwise every message from a sender other
than the reader gets `read := true`. -/
def markRead (chat : Chat) (reader : Nat) : Except ApiErr Chat :=
  if ¬ chat.participants.contains reader then Except.error ApiErr.forbidden
  else Except.ok { chat with messages := chat.messages.map (readAll reader) }

/-- The unread count the conversation-list route computes for user `u`:
messages whose sender differs from `u` and that are unread. -/
def unreadCount (u : Nat) (c : Chat) : Nat :=
  (c.messages.filter (fun m => m.sender != u && !m.read)).length

/-- An empty two-party conversation between users 1 and 2. -/
def chatC6 : Chat :=
  { id := 1, participants := [1, 2], messages := [], lastMessage := 0, relatedPost := none }

/-- C6 counterexample: sending "hi" in `chatC6` when the two clock readings
are 100 and 101 stores the message with timestamp 100 but sets `lastMessage`
to 101, so the conversation's last-activity value differs from the timestamp
of its most recent message. -/
theorem append_message_counterexample :
    appendMessage chatC6 1 "hi" 100 101 =
      Except.ok ({ chatC6 with messages := [msgOf 1 "hi" 100], lastMessage := 101 },
                 some (msgOf 1 "hi" 100)) ∧
    (msgOf 1 "hi" 100).timestamp = 100 ∧
    ({ chatC6 with messages := [msgOf 1 "hi" 100], lastMessage := 101 } : Chat).lastMessage ≠
      (msgOf 1 "hi" 100).timestamp :=
  ⟨rfl, rfl, by decide⟩

/-- C6 amended: a successful send appends a message carrying `read = false`,
the trimmed content and the first clock reading `t1` as its timestamp, and
returns that message (the last element of the updated array); `lastMessage`
is set to the second, separate clock reading `t2`, which equals the appended
message's timestamp only when the two readings coincide. -/
theorem append_message_spec (chat : Chat) (sender : Nat) (content : String) (t1 t2 : Nat)
    (hlen : 1 ≤ (jsTrim content).length ∧ (jsTrim content).length ≤ 1000)
    (hmem : sender ∈ chat.participants) :
    appendMessage chat sender content t1 t2 =
      Except.ok ({ chat with messages := chat.messages ++ [msgOf sender content t1],
                             lastMessage := t2 },
                 some (msgOf sender content t1)) ∧
    (msgOf sender content t1).read = false ∧
    (msgOf sender content t1).sender = sender ∧
    (msgOf sender content t1).timestamp = t1 ∧
    (chat.messages ++ [msgOf sender content t1]).getLast? = some (msgOf sender content t1) ∧
    (t2 = t1 → (t2 : Nat) = (msgOf sender content t1).timestamp) := by
  have hok : ¬ ((jsTrim content).length < 1 ∨ 1000 < (jsTrim content).length) := by omega
  have hc : chat.participants.contains sender = true := List.elem_eq_true_of_mem hmem
  refine ⟨?_, rfl, rfl, rfl, List.getLast?_concat _, fun h => h⟩
  unfold appendMessage
  rw [if_neg hok, if_neg (by simp [hmem])]
  simp only [List.getLast?_concat]

/-- C6 amended witness: in `chatC6`, when both clock readings are 100, the
send succeeds and all the amended properties hold concretely. -/
theorem append_message_spec_witness :
    appendMessage chatC6 1 "hi" 100 100 =
      Except.ok ({ chatC6 with messages := [msgOf 1 "hi" 100], lastMessage := 100 },
                 some (msgOf 1 "hi" 100)) :=
  (append_message_spec chatC6 1 "hi" 100 100 (by decide) (by decide)).1

/-- C7: for a participant `reader`, mark-read succeeds and the resulting
message list corresponds pointwise to the old one: senders, contents and
timestamps are untouched, a message's read flag becomes true exactly when it
already was true or its sender differs from the reader (so a true flag never
reverts to false), and running mark-read again on the result changes
nothing. -/
theorem mark_read_spec (chat : Chat) (reader : Nat) (hmem : reader ∈ chat.participants) :
    markRead chat reader = Except.ok { chat with messages := chat.messages.map (readAll reader) } ∧
    List.Forall₂
      (fun m m' => m'.sender = m.sender ∧ m'.content = m.content ∧
        m'.timestamp = m.timestamp ∧ m'.read = (m.read || m.sender != reader) ∧
        (m.read = true → m'.read = true))
      chat.messages (chat.messages.map (readAll reader)) ∧
    markRead { chat with messages := chat.messages.map (readAll reader) } reader =
      Except.ok { chat with messages := chat.messages.map (readAll reader) } := by
  refine ⟨?_, ?_, ?_⟩
  · unfold markRead
    rw [if_neg (by simp [hmem])]
  · have hall : ∀ L : List ChatMessage,
        List.Forall₂
          (fun m m' => m'.sender = m.sender ∧ m'.content = m.content ∧
            m'.timestamp = m.timestamp ∧ m'.read = (m.read || m.sender != reader) ∧
            (m.read = true → m'.read = true))
          L (L.map (readAll reader)) := by
      intro L
      induction L with
      | nil => exact List.Forall₂.nil
      | cons x xs ih =>
        refine List.Forall₂.cons ?_ ih
        unfold readAll
        by_cases hx : x.sender = reader
        · simp [hx]
        · simp [hx]
    exact hall chat.messages
  · unfold markRead
    rw [if_neg (by simp [hmem])]
    have hidem : (chat.messages.map (readAll reader)).map (readAll reader) =
        chat.messages.map (readAll reader) := by
      rw [List.map_map]
      refine List.map_congr_left ?_
      intro m _
      show readAll reader (readAll reader m) = readAll reader m
      unfold readAll
      by_cases hm : m.sender = reader
      · simp [hm]
      · simp [hm]
    rw [hidem]

/-- A conversation between users 1 and 2 holding one message from each user
plus an already-read message from user 2. -/
def chatC7 : Chat :=
  { id := 2, participants := [1, 2],
    messages := [{ sender := 1, content := "a", timestamp := 10, read := false },
                 { sender := 2, content := "b", timestamp := 11, read := false },
                 { sender := 2, content := "c", timestamp := 12, read := true }],
    lastMessage := 12, relatedPost := none }

/-- C7 witness: user 1 marking `chatC7` read flips exactly the unread message
of user 2 and leaves everything else, including user 1's own message,
untouched. -/
theorem mark_read_spec_witness :
    markRead chatC7 1 = Except.ok { chatC7 with
      messages := [{ sender := 1, content := "a", timestamp := 10, read := false },
                   { sender := 2, content := "b", timestamp := 11, read := true },
                   { sender := 2, content := "c", timestamp := 12, read := true }] } :=
  (mark_read_spec chatC7 1 (by decide)).1

/-- `find?` only depends on the pointwise values of its predicate. -/
theorem find?_congr_pred {α : Type} {p q : α → Bool} (h : ∀ x, p x = q x) :
    ∀ l : List α, l.find? p = l.find? q := by
  intro l
  induction l with
  | nil => rfl
  | cons x xs ih => rw [List.find?_cons, List.find?_cons, h x, ih]

/-- The conversation stores reachable from an empty store by any sequence of
find-or-create calls.  The message and mark-read routes never create or
remove conversations and never touch a conversation's `participants`, so the
conversation-set invariants below are determined by find-or-create alone. -/
inductive ReachableChats : List Chat → Prop where
  | nil : ReachableChats []
  | step (s : List Chat) (a b n : Nat) (rp : Option Nat) :
      ReachableChats s → ReachableChats (findOrCreate s a b n rp).2

/-- C5: in any reachable conversation store, a find-or-create for the pair
(a,b) followed by another for the same unordered pair (in either argument
order) returns the very same conversation and leaves the store unchanged;
every stored conversation has a participant array of length two; and at most
one conversation matches any unordered pair of distinct users. -/
theorem conv_find_or_create (s : List Chat) (hs : ReachableChats s) (a b : Nat) (hab : a ≠ b)
    (n1 n2 : Nat) (rp1 rp2 : Option Nat) (x y : Nat)
    (hxy : (x = a ∧ y = b) ∨ (x = b ∧ y = a)) :
    ((findOrCreate (findOrCreate s a b n1 rp1).2 x y n2 rp2).1 =
        (findOrCreate s a b n1 rp1).1 ∧
     (findOrCreate (findOrCreate s a b n1 rp1).2 x y n2 rp2).2 =
        (findOrCreate s a b n1 rp1).2) ∧
    (∀ c ∈ s, c.participants.length = 2) ∧
    (s.filter (pairPred a b)).length ≤ 1 := by
  have hpq : ∀ c, pairPred x y c = pairPred a b c := by
    rcases hxy with ⟨hx, hy⟩ | ⟨hx, hy⟩ <;> subst hx <;> subst hy <;> intro c <;>
      simp [pairPred, Bool.and_comm]
  refine ⟨?_, ?_, ?_⟩
  · cases hfind : s.find? (pairPred a b) with
    | some c =>
      have h2 : s.find? (pairPred x y) = some c := (find?_congr_pred hpq s).trans hfind
      constructor <;> simp [findOrCreate, hfind, h2]
    | none =>
      have h2 : s.find? (pairPred x y) = none := (find?_congr_pred hpq s).trans hfind
      have hnewc : pairPred x y (newConv a b n1 rp1) = true := by
        rcases hxy with ⟨hx, hy⟩ | ⟨hx, hy⟩ <;> subst hx <;> subst hy <;>
          simp [pairPred, newConv]
      constructor <;>
        simp [findOrCreate, hfind, List.find?_append, h2, List.find?_cons, hnewc]
  · induction hs with
    | nil => simp
    | step s' x' y' n' rp' _ ih =>
      cases hfind : s'.find? (pairPred x' y') with
      | some c =>
        simpa [findOrCreate, hfind] using ih
      | none =>
        simp only [findOrCreate, hfind]
        intro c hc
        rcases List.mem_append.mp hc with hc' | hc'
        · exact ih c hc'
        · simp only [List.mem_singleton] at hc'
          subst hc'
          rfl
  · induction hs with
    | nil => simp
    | step s' x' y' n' rp' _ ih =>
      cases hfind : s'.find? (pairPred x' y') with
      | some c =>
        simpa [findOrCreate, hfind] using ih
      | none =>
        simp only [findOrCreate, hfind]
        rw [List.filter_append]
        by_cases hp : pairPred a b (newConv x' y' n' rp') = true
        · have hm : (a = x' ∨ a = y') ∧ (b = x' ∨ b = y') := by
            simpa [pairPred, newConv] using hp
          have hsame : ∀ c, pairPred a b c = pairPred x' y' c := by
            rcases hm with ⟨ha | ha, hb | hb⟩
            · exact absurd (ha.trans hb.symm) hab
            · subst ha; subst hb; intro c; rfl
            · subst ha; subst hb; intro c; simp [pairPred, Bool.and_comm]
            · exact absurd (ha.trans hb.symm) hab
          have hempty : s'.filter (pairPred a b) = [] := by
            rw [List.filter_eq_nil_iff]
            intro c hc
            have hnc := List.find?_eq_none.mp hfind c hc
            simpa [hsame c] using hnc
          simp [hempty, hp]
        · simp only [Bool.not_eq_true] at hp
          simpa [hp] using ih

/-- The conversation store holding the single conversation created by a
first contact between users 1 and 2. -/
def chatsW : List Chat := (findOrCreate [] 1 2 7 none).2

/-- C5 witness: on the concrete reachable store `chatsW`, a find-or-create
for (1,2) followed by one for (2,1) returns the same conversation, and the
store holds at most one conversation for the pair. -/
theorem conv_find_or_create_witness :
    ((findOrCreate (findOrCreate chatsW 1 2 8 none).2 2 1 9 none).1 =
      (findOrCreate chatsW 1 2 8 none).1) ∧
    (chatsW.filter (pairPred 1 2)).length ≤ 1 :=
  ⟨(conv_find_or_create chatsW (ReachableChats.step [] 1 2 7 none ReachableChats.nil)
      1 2 (by decide) 8 9 none none 2 1 (Or.inr ⟨rfl, rfl⟩)).1.1,
   (conv_find_or_create chatsW (ReachableChats.step [] 1 2 7 none ReachableChats.nil)
      1 2 (by decide) 8 9 none none 2 1 (Or.inr ⟨rfl, rfl⟩)).2.2⟩

/-- The Mongo sort `{lastMessage: -1}` of the conversation-list route:
conversation `a` precedes `b` when its last-activity stamp is at least
`b`'s. -/
def byRecentActivity (a b : Chat) : Prop := b.lastMessage ≤ a.lastMessage

instance : DecidableRel byRecentActivity :=
  fun a b => Nat.decLe b.lastMessage a.lastMessage

instance : IsTotal Chat byRecentActivity :=
  ⟨fun a b => Nat.le_total b.lastMessage a.lastMessage⟩

instance : IsTrans Chat byRecentActivity :=
  ⟨fun _ _ _ hab hbc => Nat.le_trans hbc hab⟩

/-- The per-conversation object the conversation-list route returns: the
counterpart participant (the first participant differing from the caller),
the related post, the most recent message (or none), and the unread count. -/
structure ConvEntry where
  id : Nat
  participant : Option Nat
  relatedPost : Option Nat
  lastMsg : Option ChatMessage
  unread : Nat
deriving DecidableEq

/-- The mapping of one conversation to its list entry in
`GET /api/chat/conversations`. -/
def toEntry (u : Nat) (c : Chat) : ConvEntry :=
  { id := c.id
    participant := c.participants.find? (fun p => p != u)
    relatedPost := c.relatedPost
    lastMsg := c.messages.getLast?
    unread := unreadCount u c }

/-- The conversations containing the caller, most recent activity first
(`Chat.find({participants: user}).sort({lastMessage: -1})`). -/
def sortedChatsFor (u : Nat) (chats : List Chat) : List Chat :=
  (chats.filter (fun c => c.participants.contains u)).insertionSort byRecentActivity

/-- `GET /api/chat/conversations`: the stored conversations containing the
caller, sorted by descending `lastMessage`, each mapped to its entry. -/
def listConversations (u : Nat) (chats : List Chat) : List ConvEntry :=
  (sortedChatsFor u chats).map (toEntry u)

/-- C8: the conversation list for user `u` consists of one entry per stored
conversation containing `u` (the underlying list is a permutation of that
filter), ordered by descending last activity; each entry carries the unread
count of messages from the other side that are unread, the most recent
message (none for an empty conversation), and — when every conversation is
between two distinct users — a counterpart participant different from `u`. -/
theorem list_conversations_spec (u : Nat) (chats : List Chat)
    (htwo : ∀ c ∈ chats, ∃ a b, a ≠ b ∧ c.participants = [a, b]) :
    listConversations u chats = (sortedChatsFor u chats).map (toEntry u) ∧
    (sortedChatsFor u chats).Perm (chats.filter (fun c => c.participants.contains u)) ∧
    List.Sorted byRecentActivity (sortedChatsFor u chats) ∧
    ∀ c ∈ sortedChatsFor u chats,
      c.participants.contains u = true ∧
      (toEntry u c).unread = (c.messages.filter (fun m => m.sender != u && !m.read)).length ∧
      (toEntry u c).lastMsg = c.messages.getLast? ∧
      ∃ p, (toEntry u c).participant = some p ∧ p ∈ c.participants ∧ p ≠ u := by
  refine ⟨rfl, List.perm_insertionSort _ _, List.sorted_insertionSort _ _, ?_⟩
  intro c hc
  rw [sortedChatsFor, List.mem_insertionSort] at hc
  obtain ⟨hchats, hu⟩ := List.mem_filter.mp hc
  obtain ⟨a, b, hab, hparts⟩ := htwo c hchats
  have humem : u ∈ c.participants := by simpa using hu
  refine ⟨hu, rfl, rfl, ?_⟩
  have hfind : (toEntry u c).participant = c.participants.find? (fun p => p != u) := rfl
  rcases (by simpa [hparts] using humem : u = a ∨ u = b) with hu' | hu'
  · subst hu'
    have hb : (b != u) = true := by
      simpa [bne_iff_ne] using fun h => hab h.symm
    refine ⟨b, ?_, by simp [hparts], fun h => hab h.symm⟩
    rw [hfind, hparts]
    simp [List.find?_cons, hb]
  · subst hu'
    have ha : (a != u) = true := by simpa [bne_iff_ne] using hab
    refine ⟨a, ?_, by simp [hparts], hab⟩
    rw [hfind, hparts]
    simp [List.find?_cons, ha]

/-- A concrete store: two conversations containing user 1 (one of them
empty, with later activity) and one conversation not containing user 1. -/
def chatsC8 : List Chat :=
  [{ id := 1, participants := [1, 2],
     messages := [{ sender := 2, content := "x", timestamp := 5, read := false }],
     lastMessage := 5, relatedPost := none },
   { id := 2, participants := [2, 3], messages := [], lastMessage := 7, relatedPost := none },
   { id := 3, participants := [1, 3], messages := [], lastMessage := 9, relatedPost := some 4 }]

/-- C8 witness: for user 1 on the concrete store `chatsC8`, the underlying
list is sorted by descending activity and is a permutation of the stored
conversations containing user 1. -/
theorem list_conversations_spec_witness :
    List.Sorted byRecentActivity (sortedChatsFor 1 chatsC8) ∧
    (sortedChatsFor 1 chatsC8).Perm (chatsC8.filter (fun c => c.participants.contains 1)) :=
  ⟨(list_conversations_spec 1 chatsC8 (by
      intro c hc
      simp only [chatsC8, List.mem_cons, List.not_mem_nil, or_false] at hc
      rcases hc with rfl | rfl | rfl
      · exact ⟨1, 2, by decide, rfl⟩
      · exact ⟨2, 3, by decide, rfl⟩
      · exact ⟨1, 3, by decide, rfl⟩)).2.2.1,
   (list_conversations_spec 1 chatsC8 (by
      intro c hc
      simp only [chatsC8, List.mem_cons, List.not_mem_nil, or_false] at hc
      rcases hc with rfl | rfl | rfl
      · exact ⟨1, 2, by decide, rfl⟩
      · exact ⟨2, 3, by decide, rfl⟩
      · exact ⟨1, 3, by decide, rfl⟩)).2.1⟩

/-- A socket connection: its id and the `socket.userId` field the join
handler assigns. -/
structure Socket where
  sid : Nat
  userId : Option Nat
deriving DecidableEq

/-- JS `Map.prototype.set` on the `activeUsers` map: overwrite in place when
the key is present (keeping insertion order), else append. -/
def mapSet (reg : List (Nat × Nat)) (k v : Nat) : List (Nat × Nat) :=
  if reg.any (fun p => p.1 == k) then reg.map (fun p => if p.1 == k then (k, v) else p)
  else reg ++ [(k, v)]

/-- JS `Map.prototype.delete`: drop the entry with the given key. -/
def mapDelete (reg : List (Nat × Nat)) (k : Nat) : List (Nat × Nat) :=
  reg.filter (fun p => p.1 != k)

/-- JS `Map.prototype.get`. -/
def mapGet (reg : List (Nat × Nat)) (k : Nat) : Option Nat :=
  (reg.find? (fun p => p.1 == k)).map (fun p => p.2)

/-- `socket.on('join')`: `activeUsers.set(userId, socket.id)` and
`socket.userId = userId`. -/
def joinEvent (reg : List (Nat × Nat)) (s : Socket) (uid : Nat) :
    List (Nat × Nat) × Socket :=
  (mapSet reg uid s.sid, { s with userId := some uid })

/-- `socket.on('disconnect')`: when `socket.userId` is set,
`activeUsers.delete(socket.userId)` — with no check that the stored handle
is this socket's. -/
def disconnectEvent (reg : List (Nat × Nat)) (s : Socket) : List (Nat × Nat) :=
  match s.userId with
  | some uid => mapDelete reg uid
  | none => reg

theorem mapGet_overwrite (reg : List (Nat × Nat)) (k v : Nat)
    (h : reg.any (fun p => p.1 == k) = true) :
    mapGet (reg.map (fun p => if p.1 == k then (k, v) else p)) k = some v := by
  induction reg with
  | nil => simp at h
  | cons p ps ih =>
    by_cases hp : (p.1 == k) = true
    · simp only [List.map_cons, if_pos hp]
      unfold mapGet
      rw [List.find?_cons_of_pos _ (by simp)]
      rfl
    · have hps : ps.any (fun q => q.1 == k) = true := by
        simpa [List.any_cons, hp] using h
      simp only [List.map_cons, if_neg hp]
      unfold mapGet
      rw [List.find?_cons_of_neg _ (by simpa using hp)]
      simpa [mapGet] using ih hps

theorem mapGet_set (reg : List (Nat × Nat)) (k v : Nat) :
    mapGet (mapSet reg k v) k = some v := by
  unfold mapSet
  by_cases h : reg.any (fun p => p.1 == k) = true
  · rw [if_pos h]
    exact mapGet_overwrite reg k v h
  · rw [if_neg h]
    have hnone : reg.find? (fun p => p.1 == k) = none := by
      rw [List.find?_eq_none]
      intro p hp hpk
      exact h (List.any_eq_true.mpr ⟨p, hp, hpk⟩)
    simp [mapGet, List.find?_append, hnone]

theorem mapGet_delete (reg : List (Nat × Nat)) (k : Nat) :
    mapGet (mapDelete reg k) k = none := by
  have hnone : (mapDelete reg k).find? (fun p => p.1 == k) = none := by
    rw [List.find?_eq_none]
    intro p hp
    have := (List.mem_filter.mp hp).2
    simpa [bne_iff_ne] using this
  simp [mapGet, hnone]

/-- C9 counterexample: user 1 registers handle 10, then handle 20 (so the
stored handle is 20); the disconnect of the superseded socket (id 10) still
deletes user 1's entry, although the claim says a disconnect of a superseded
handle must leave the newer registration in place. -/
theorem presence_disconnect_counterexample :
    (joinEvent [] { sid := 10, userId := none } 1).1 = [(1, 10)] ∧
    (joinEvent [] { sid := 10, userId := none } 1).2 = { sid := 10, userId := some 1 } ∧
    (joinEvent [(1, 10)] { sid := 20, userId := none } 1).1 = [(1, 20)] ∧
    mapGet [(1, 20)] 1 = some 20 ∧
    disconnectEvent [(1, 20)] (joinEvent [] { sid := 10, userId := none } 1).2 = [] ∧
    mapGet (disconnectEvent [(1, 20)] (joinEvent [] { sid := 10, userId := none } 1).2) 1 =
      none := by
  refine ⟨rfl, rfl, rfl, rfl, rfl, rfl⟩

/-- C9 amended: a join always stores the socket's handle for the user,
overwriting any previous one (latest registration wins), and records the
user id on the socket; a disconnect of a socket that joined as user `u`
removes `u`'s registry entry unconditionally — whether or not the stored
handle is still this socket's — while a disconnect of a socket that never
joined leaves the registry unchanged. -/
theorem presence_registry_spec (reg : List (Nat × Nat)) (s : Socket) (uid : Nat) :
    mapGet (joinEvent reg s uid).1 uid = some s.sid ∧
    (joinEvent reg s uid).2.userId = some uid ∧
    (∀ u, s.userId = some u → mapGet (disconnectEvent reg s) u = none) ∧
    (s.userId = none → disconnectEvent reg s = reg) := by
  refine ⟨mapGet_set reg uid s.sid, rfl, ?_, ?_⟩
  · intro u hu
    unfold disconnectEvent
    rw [hu]
    exact mapGet_delete reg u
  · intro hu
    unfold disconnectEvent
    rw [hu]

/-- C9 amended witness: joining stores the handle; a disconnect of a socket
that joined as user 1 empties user 1's entry even when the stored handle is
a different one; a never-joined socket's disconnect is a no-op. -/
theorem presence_registry_spec_witness :
    mapGet (joinEvent [] { sid := 10, userId := none } 1).1 1 = some 10 ∧
    mapGet (disconnectEvent [(1, 20)] { sid := 10, userId := some 1 }) 1 = none ∧
    disconnectEvent [(1, 20)] { sid := 99, userId := none } = [(1, 20)] :=
  ⟨(presence_registry_spec [] { sid := 10, userId := none } 1).1,
   (presence_registry_spec [(1, 20)] { sid := 10, userId := some 1 } 5).2.2.1 1 rfl,
   (presence_registry_spec [(1, 20)] { sid := 99, userId := none } 5).2.2.2 rfl⟩

end TravelServer
